import Mathlib

/-!
Verification of `src/pdf-swissarmyknife.py`:

The script brings in PdfReader from PyPDF2, alive_it from alive_progress,
and the sys and json modules, then runs:

```
  filename = sys.argv[1]
  reader = PdfReader(filename)
  text = [page.extract_text() for page in alive_it(reader.pages)]
  json.dump(text, open(filename + '.json', 'w'))
```

We shallowly embed the script as a function from a filesystem, an argument
vector and a model of the external PDF library to an outcome (exit code,
whether error detail went to the error stream, and the resulting
filesystem).  Python uncaught-exception semantics are modelled as exit code
1 with a traceback on the error stream.
-/

/-- A file's content, as a list of bytes. -/
abbrev FileContent := List Nat

/-- A filesystem: a partial map from paths to file contents. -/
abbrev FS := String → Option FileContent

/-- Write a file: the path now holds `content`; all other paths unchanged. -/
def fsWrite (fs : FS) (path : String) (content : FileContent) : FS :=
  fun q => if q = path then some content else fs q

/-- Model of a PyPDF2 page object: `extract_text()` either returns the page
text or raises (modelled as `Except.error` with the message). -/
structure Page where
  extract_text : Except String String

/-- Model of a parsed `PdfReader` object: its ordered `pages` list. -/
structure PdfReaderDoc where
  pages : List Page

/-- Model of the external PyPDF2 library: parsing the bytes of a file either
yields a reader or raises (`PdfReadError` and friends). The library is a
function of the bytes, hence deterministic, matching the spec's assumption
that the collaborator is correct and stable. -/
structure PdfLib where
  parse : FileContent → Except String PdfReaderDoc

/-- Model of `alive_progress.alive_it`: wraps an iterable, yielding exactly
the underlying elements in order while drawing a progress bar on the status
stream. The yielded sequence is the iterable itself; the drawing is not a
filesystem effect. -/
def alive_it (xs : List Page) : List Page := xs

/-- Line 8's list comprehension: call `extract_text()` on each page in
order, stopping at the first page whose extraction raises. -/
def extractAll : List Page → Except String (List String)
  | [] => .ok []
  | p :: ps =>
    match p.extract_text with
    | .error e => .error e
    | .ok s =>
      match extractAll ps with
      | .error e => .error e
      | .ok ss => .ok (s :: ss)

/-- The lowercase hex digit for `n < 16`, as CPython's JSON escape
formatting uses: `0`-`9` are code points 48-57, `a`-`f` are 97-102. -/
def hexDigit (n : Nat) : Char :=
  if n < 10 then Char.ofNat (48 + n) else if n < 16 then Char.ofNat (87 + n) else '0'

/-- A six-character `\uXXXX` escape for code point `n < 0x10000`. -/
def uEscape (n : Nat) : List Char :=
  ['\\', 'u', hexDigit (n / 4096 % 16), hexDigit (n / 256 % 16), hexDigit (n / 16 % 16), hexDigit (n % 16)]

/-- CPython `json.encoder.py_encode_basestring_ascii` per character
(`ensure_ascii=True`, the `json.dump` default): the two-character escapes
from `ESCAPE_DCT`, `\u00XX` for remaining control characters, literal
characters for printable ASCII `0x20..0x7e`, and `\uXXXX` (a surrogate pair
for astral code points) for everything else. -/
def escapeChar (c : Char) : List Char :=
  if c = '\\' then ['\\', '\\']
  else if c = '"' then ['\\', '"']
  else if c = '\x08' then ['\\', 'b']
  else if c = '\x0c' then ['\\', 'f']
  else if c = '\n' then ['\\', 'n']
  else if c = '\r' then ['\\', 'r']
  else if c = '\t' then ['\\', 't']
  else if c.toNat < 0x20 then uEscape c.toNat
  else if c.toNat < 0x7f then [c]
  else if c.toNat < 0x10000 then uEscape c.toNat
  else
    uEscape (0xd800 + (c.toNat - 0x10000) / 0x400) ++ uEscape (0xdc00 + (c.toNat - 0x10000) % 0x400)

/-- JSON encoding of one string: quote, escaped characters, quote. -/
def encodeString (s : String) : List Char :=
  '"' :: s.data.flatMap escapeChar ++ ['"']

/-- `json.dump` of a list of strings with default arguments: brackets and
the default `', '` item separator. -/
def json_dump (texts : List String) : List Char :=
  match texts with
  | [] => ['[', ']']
  | t :: ts => '[' :: (encodeString t ++ ts.flatMap (fun s => ',' :: ' ' :: encodeString s)) ++ [']']

/-- The bytes `json.dump` sends through the file object: all characters are
ASCII (proved below), so each byte is the character's code point. -/
def jsonBytes (texts : List String) : FileContent :=
  (json_dump texts).map Char.toNat

/-- Outcome of one process invocation: the exit code (0 on success, 1 for
an uncaught Python exception), whether error detail (a traceback) was
printed on the error stream, and the resulting filesystem. -/
structure Outcome where
  exitCode : Nat
  errDetail : Bool
  fs : FS

/-- Lines 7-9 of the script, once `sys.argv[1]` yielded `filename`:
`PdfReader(filename)` raises `FileNotFoundError` when the path is absent
and `PdfReadError` when the bytes do not parse; line 8 extracts every page
in order; line 9 opens `filename + '.json'` for writing (truncating) and
dumps the list. Any uncaught exception exits with code 1 and a traceback on
the error stream, leaving the filesystem untouched. -/
def runOn (lib : PdfLib) (fs : FS) (filename : String) : Outcome :=
  match fs filename with
  | none => ⟨1, true, fs⟩
  | some content =>
    match lib.parse content with
    | .error _ => ⟨1, true, fs⟩
    | .ok reader =>
      match extractAll (alive_it reader.pages) with
      | .error _ => ⟨1, true, fs⟩
      | .ok texts => ⟨0, false, fsWrite fs (filename ++ ".json") (jsonBytes texts)⟩

/-- The whole script: `sys.argv[1]` raises `IndexError` when absent
(`sys.argv[0]` is the program name); any further positional arguments are
never read. -/
def run (lib : PdfLib) (fs : FS) (argv : List String) : Outcome :=
  match argv[1]? with
  | none => ⟨1, true, fs⟩
  | some filename => runOn lib fs filename

/-- The successive contents of the output path `filename + '.json'` during
the run, in chronological order. No failure branch ever reaches line 9, so
there the content stays what it was. On the success path, line 9's
`open(filename + '.json', 'w')` first truncates the file to empty, then the
serialized bytes are written through a buffer, so external termination can
leave any prefix of them; the chronological contents are the original one
followed by every prefix of the serialized bytes, ending with all of them. -/
def outputDuringRun (lib : PdfLib) (fs : FS) (argv : List String) : List (Option FileContent) :=
  match argv[1]? with
  | none => []
  | some filename =>
    match fs filename with
    | none => [fs (filename ++ ".json")]
    | some content =>
      match lib.parse content with
      | .error _ => [fs (filename ++ ".json")]
      | .ok reader =>
        match extractAll (alive_it reader.pages) with
        | .error _ => [fs (filename ++ ".json")]
        | .ok texts =>
          fs (filename ++ ".json") ::
            (List.range ((jsonBytes texts).length + 1)).map (fun k => some ((jsonBytes texts).take k))

/-- Modelled from the spec: the near-duplicate variant script without the
progress display (the spec describes two near-duplicate scripts differing
only in whether a progress bar is shown; only the `alive_it` variant is
under `src/`). It iterates `reader.pages` directly. -/
def runOnNoProgress (lib : PdfLib) (fs : FS) (filename : String) : Outcome :=
  match fs filename with
  | none => ⟨1, true, fs⟩
  | some content =>
    match lib.parse content with
    | .error _ => ⟨1, true, fs⟩
    | .ok reader =>
      match extractAll reader.pages with
      | .error _ => ⟨1, true, fs⟩
      | .ok texts => ⟨0, false, fsWrite fs (filename ++ ".json") (jsonBytes texts)⟩

/-- Modelled from the spec: the whole no-progress variant script. -/
def runNoProgress (lib : PdfLib) (fs : FS) (argv : List String) : Outcome :=
  match argv[1]? with
  | none => ⟨1, true, fs⟩
  | some filename => runOnNoProgress lib fs filename

/-- Opening the document fails: the input path is absent (Python
`FileNotFoundError`) or its bytes do not parse as a PDF (`PdfReadError`). -/
def openFails (lib : PdfLib) (fs : FS) (p : String) : Prop :=
  fs p = none ∨ ∃ c e, fs p = some c ∧ lib.parse c = .error e

/-- The document opens but extracting some page's text raises. -/
def extractFails (lib : PdfLib) (fs : FS) (p : String) : Prop :=
  ∃ c reader e, fs p = some c ∧ lib.parse c = .ok reader ∧
    extractAll (alive_it reader.pages) = .error e

/-- A concrete one-page library: any bytes parse to one page whose text is
"Hello". -/
def lib0 : PdfLib := ⟨fun _ => .ok ⟨[⟨.ok "Hello"⟩]⟩⟩

/-- A concrete library whose document's second page raises on extraction. -/
def libRaise : PdfLib := ⟨fun _ => .ok ⟨[⟨.ok "x"⟩, ⟨.error "bad stream"⟩]⟩⟩

/-- A concrete library that rejects every input as unparsable. -/
def libBad : PdfLib := ⟨fun _ => .error "EOF marker not found"⟩

/-- A concrete one-page library whose page text holds a non-ASCII char. -/
def libUnicode : PdfLib := ⟨fun _ => .ok ⟨[⟨.ok "é"⟩]⟩⟩

/-- A concrete filesystem holding one file `a.pdf`. -/
def fs0 : FS := fun q => if q = "a.pdf" then some [37, 80, 68, 70] else none

/-- A concrete filesystem holding `a.pdf` and a pre-existing `a.pdf.json`,
to exercise the overwrite case. -/
def fs1 : FS := fun q =>
  if q = "a.pdf" then some [37, 80, 68, 70]
  else if q = "a.pdf.json" then some [110, 117, 108, 108] else none

/-- A path is never equal to itself with `.json` appended. -/
theorem ne_append_json (p : String) : p ≠ p ++ ".json" := by
  intro h
  have h2 := congrArg String.length h
  simp [String.length_append] at h2
  exact absurd h2 (by decide)

theorem fsWrite_self (fs : FS) (path : String) (c : FileContent) :
    fsWrite fs path c path = some c := by
  simp [fsWrite]

theorem fsWrite_ne (fs : FS) (path q : String) (c : FileContent) (h : q ≠ path) :
    fsWrite fs path c q = fs q := by
  simp [fsWrite, h]

/-- The serialized output always holds at least the two bracket bytes. -/
theorem jsonBytes_ne_nil (texts : List String) : jsonBytes texts ≠ [] := by
  cases texts <;> simp [jsonBytes, json_dump]

/-- Successful extraction yields one string per page. -/
theorem extractAll_length {ps : List Page} {ts : List String}
    (h : extractAll ps = .ok ts) : ts.length = ps.length := by
  induction ps generalizing ts with
  | nil => simp [extractAll] at h; simp [← h]
  | cons p ps ih =>
    unfold extractAll at h
    cases hp : p.extract_text with
    | error e => simp [hp] at h
    | ok s =>
      simp [hp] at h
      cases hr : extractAll ps with
      | error e => simp [hr] at h
      | ok ss =>
        simp [hr] at h
        simp [← h, ih hr]

/-- Successful extraction is index-aligned: the i-th result is the i-th
page's text. -/
theorem extractAll_get {ps : List Page} {ts : List String}
    (h : extractAll ps = .ok ts) :
    ∀ i (hi : i < ps.length) (hi' : i < ts.length),
      (ps.get ⟨i, hi⟩).extract_text = .ok (ts.get ⟨i, hi'⟩) := by
  induction ps generalizing ts with
  | nil => intro i hi hi'; simp at hi
  | cons p ps ih =>
    unfold extractAll at h
    cases hp : p.extract_text with
    | error e => simp [hp] at h
    | ok s =>
      simp [hp] at h
      cases hr : extractAll ps with
      | error e => simp [hr] at h
      | ok ss =>
        simp [hr] at h
        subst h
        intro i hi hi'
        cases i with
        | zero => simpa using hp
        | succ n =>
          simpa using ih hr n (by simpa using hi) (by simpa using hi')

/-- Index alignment, phrased with optional indexing. -/
theorem extractAll_align {ps : List Page} {ts : List String}
    (h : extractAll ps = .ok ts) (i : Nat) (hi : i < ps.length) :
    ∃ pg t, ps[i]? = some pg ∧ ts[i]? = some t ∧ pg.extract_text = .ok t := by
  have hl := extractAll_length h
  have hi' : i < ts.length := by omega
  exact ⟨ps.get ⟨i, hi⟩, ts.get ⟨i, hi'⟩,
    by simp [List.getElem?_eq_getElem hi],
    by simp [List.getElem?_eq_getElem hi'],
    extractAll_get h i hi hi'⟩

theorem hexDigit_ascii : ∀ m < 16, (hexDigit m).toNat < 128 := by decide

theorem uEscape_ascii (n : Nat) : ∀ d ∈ uEscape n, d.toNat < 128 := by
  intro d hd
  unfold uEscape at hd
  simp at hd
  rcases hd with h | h | h | h | h | h <;> subst h
  · decide
  · decide
  · exact hexDigit_ascii _ (Nat.mod_lt _ (by norm_num))
  · exact hexDigit_ascii _ (Nat.mod_lt _ (by norm_num))
  · exact hexDigit_ascii _ (Nat.mod_lt _ (by norm_num))
  · exact hexDigit_ascii _ (Nat.mod_lt _ (by norm_num))

set_option maxHeartbeats 1600000 in
theorem escapeChar_ascii (c : Char) : ∀ d ∈ escapeChar c, d.toNat < 128 := by
  intro d hd
  unfold escapeChar at hd
  split_ifs at hd with h1 h2 h3 h4 h5 h6 h7 h8 h9 h10
  · simp at hd; subst hd; decide
  · simp at hd; rcases hd with h | h <;> subst h <;> decide
  · simp at hd; rcases hd with h | h <;> subst h <;> decide
  · simp at hd; rcases hd with h | h <;> subst h <;> decide
  · simp at hd; rcases hd with h | h <;> subst h <;> decide
  · simp at hd; rcases hd with h | h <;> subst h <;> decide
  · simp at hd; rcases hd with h | h <;> subst h <;> decide
  · exact uEscape_ascii _ d hd
  · simp at hd; subst hd; omega
  · exact uEscape_ascii _ d hd
  · simp at hd
    rcases hd with h | h
    · exact uEscape_ascii _ d h
    · exact uEscape_ascii _ d h

theorem encodeString_ascii (s : String) : ∀ d ∈ encodeString s, d.toNat < 128 := by
  intro d hd
  unfold encodeString at hd
  simp at hd
  rcases hd with h | ⟨c, _, h⟩ | h
  · subst h; decide
  · exact escapeChar_ascii c d h
  · subst h; decide

theorem json_dump_ascii (texts : List String) : ∀ d ∈ json_dump texts, d.toNat < 128 := by
  intro d hd
  unfold json_dump at hd
  cases texts with
  | nil => simp at hd; rcases hd with h | h <;> subst h <;> decide
  | cons t ts =>
    simp at hd
    rcases hd with h | h | ⟨s, _, h⟩ | h
    · subst h; decide
    · exact encodeString_ascii t d h
    · rcases h with h | h | h
      · subst h; decide
      · subst h; decide
      · exact encodeString_ascii s d h
    · subst h; decide

theorem jsonBytes_ascii (texts : List String) : ∀ b ∈ jsonBytes texts, b < 128 := by
  intro b hb
  unfold jsonBytes at hb
  simp at hb
  obtain ⟨d, hd, rfl⟩ := hb
  exact json_dump_ascii texts d hd

/-- Reduction of `run` on the success path. -/
theorem run_success {lib : PdfLib} {fs : FS} (prog : String) {p : String} {c : FileContent}
    {reader : PdfReaderDoc} {texts : List String}
    (h1 : fs p = some c) (h2 : lib.parse c = .ok reader)
    (h3 : extractAll (alive_it reader.pages) = .ok texts) :
    run lib fs [prog, p] = ⟨0, false, fsWrite fs (p ++ ".json") (jsonBytes texts)⟩ := by
  unfold run runOn
  simp [h1, h2, h3]

/-- Reduction of `run` when opening the document fails. -/
theorem run_openFails_cases (lib : PdfLib) {fs : FS} (prog : String) {p : String}
    (h : openFails lib fs p) : run lib fs [prog, p] = ⟨1, true, fs⟩ := by
  unfold run runOn
  rcases h with h | ⟨c, e, hc, he⟩
  · simp [h]
  · simp [hc, he]

/-- Reduction of `run` when some page's extraction fails. -/
theorem run_extractFails_cases (lib : PdfLib) {fs : FS} (prog : String) {p : String}
    (h : extractFails lib fs p) : run lib fs [prog, p] = ⟨1, true, fs⟩ := by
  unfold run runOn
  obtain ⟨c, reader, e, hc, hr, he⟩ := h
  simp [hc, hr, he]

/-- C1: for every readable, well-formed N-page PDF at path p, running the
program on p exits 0 and writes at p + ".json" the JSON serialization of an
array of strings with exactly N elements, where element i is the extracted
text of page i, in ascending page-index order. -/
theorem C1_writes_json_array (lib : PdfLib) (fs : FS) (prog p : String)
    (c : FileContent) (reader : PdfReaderDoc) (texts : List String) (N : Nat)
    (h1 : fs p = some c) (h2 : lib.parse c = .ok reader)
    (h3 : extractAll (alive_it reader.pages) = .ok texts)
    (hN : reader.pages.length = N) :
    (run lib fs [prog, p]).exitCode = 0 ∧
    (run lib fs [prog, p]).fs (p ++ ".json") = some (jsonBytes texts) ∧
    texts.length = N ∧
    (∀ i, i < N → ∃ pg t, reader.pages[i]? = some pg ∧ texts[i]? = some t ∧
      pg.extract_text = .ok t) := by
  rw [run_success prog h1 h2 h3]
  refine ⟨rfl, fsWrite_self fs (p ++ ".json") (jsonBytes texts), ?_, ?_⟩
  · have := extractAll_length h3
    simpa [alive_it, hN] using this
  · intro i hi
    exact extractAll_align h3 i (by simpa [alive_it, hN] using hi)

theorem C1_witness :
    (run lib0 fs0 ["prog", "a.pdf"]).exitCode = 0 ∧
    (run lib0 fs0 ["prog", "a.pdf"]).fs ("a.pdf" ++ ".json") = some (jsonBytes ["Hello"]) ∧
    (["Hello"] : List String).length = 1 ∧
    (∀ i, i < 1 → ∃ pg t, ([(⟨.ok "Hello"⟩ : Page)])[i]? = some pg ∧
      (["Hello"] : List String)[i]? = some t ∧ pg.extract_text = .ok t) :=
  C1_writes_json_array lib0 fs0 "prog" "a.pdf" [37, 80, 68, 70] ⟨[⟨.ok "Hello"⟩]⟩
    ["Hello"] 1 (by decide) rfl rfl rfl

/-- C2: if opening the document fails or extracting text from any page
fails, the run aborts with a non-zero exit code and the filesystem — in
particular the output path — is left exactly as it was: no JSON output file
is written, not even a piece of one. -/
theorem C2_failure_no_output_write (lib : PdfLib) (fs : FS) (prog p : String)
    (h : openFails lib fs p ∨ extractFails lib fs p) :
    (run lib fs [prog, p]).exitCode ≠ 0 ∧ (run lib fs [prog, p]).fs = fs := by
  rcases h with h | h
  · rw [run_openFails_cases lib prog h]; exact ⟨by simp, rfl⟩
  · rw [run_extractFails_cases lib prog h]; exact ⟨by simp, rfl⟩

theorem C2_witness :
    (openFails libRaise fs0 "a.pdf" ∨ extractFails libRaise fs0 "a.pdf") ∧
    ((run libRaise fs0 ["prog", "a.pdf"]).exitCode ≠ 0 ∧
      (run libRaise fs0 ["prog", "a.pdf"]).fs = fs0) := by
  have h : openFails libRaise fs0 "a.pdf" ∨ extractFails libRaise fs0 "a.pdf" :=
    Or.inr ⟨[37, 80, 68, 70], ⟨[⟨.ok "x"⟩, ⟨.error "bad stream"⟩]⟩, "bad stream",
      by decide, rfl, rfl⟩
  exact ⟨h, C2_failure_no_output_write libRaise fs0 "prog" "a.pdf" h⟩

/-- C3: for a missing input path, and for an existing input file whose
bytes are not a readable well-formed PDF, the program exits with a non-zero
exit code and p + ".json" is neither created nor modified — the whole
filesystem is unchanged. -/
theorem C3_open_failure_no_output (lib : PdfLib) (fs : FS) (prog p : String)
    (h : openFails lib fs p) :
    (run lib fs [prog, p]).exitCode ≠ 0 ∧
    (run lib fs [prog, p]).fs (p ++ ".json") = fs (p ++ ".json") ∧
    (run lib fs [prog, p]).fs = fs := by
  rw [run_openFails_cases lib prog h]
  exact ⟨by simp, rfl, rfl⟩

theorem C3_witness :
    openFails libBad fs0 "a.pdf" ∧
    ((run libBad fs0 ["prog", "a.pdf"]).exitCode ≠ 0 ∧
      (run libBad fs0 ["prog", "a.pdf"]).fs ("a.pdf" ++ ".json") = fs0 ("a.pdf" ++ ".json") ∧
      (run libBad fs0 ["prog", "a.pdf"]).fs = fs0) := by
  have h : openFails libBad fs0 "a.pdf" :=
    Or.inr ⟨[37, 80, 68, 70], "EOF marker not found", by decide, rfl⟩
  exact ⟨h, C3_open_failure_no_output libBad fs0 "prog" "a.pdf" h⟩

/-- C4: counterexample — an invocation with two positional arguments is not
rejected: on a valid one-page PDF it succeeds with exit code 0, prints no
error detail, and writes the output for the first argument. -/
theorem C4_counterexample :
    (run lib0 fs0 ["prog", "a.pdf", "b.pdf"]).exitCode = 0 ∧
    (run lib0 fs0 ["prog", "a.pdf", "b.pdf"]).errDetail = false ∧
    (run lib0 fs0 ["prog", "a.pdf", "b.pdf"]).fs "a.pdf.json" = some (jsonBytes ["Hello"]) := by
  refine ⟨by decide, by decide, ?_⟩
  show fsWrite fs0 ("a.pdf" ++ ".json") (jsonBytes ["Hello"]) "a.pdf.json" = some (jsonBytes ["Hello"])
  simp [fsWrite]

/-- C4 (amended): the CLI reads only its first positional argument: a
missing argument is a failure with a non-zero exit code and error detail on
the error stream; extra positional arguments beyond the first are silently
ignored (the run equals the run on the first argument alone); exit code is
0 on success. -/
theorem C4_amended_cli (lib : PdfLib) (fs : FS) (prog p : String) (rest : List String)
    (c : FileContent) (reader : PdfReaderDoc) (texts : List String)
    (h1 : fs p = some c) (h2 : lib.parse c = .ok reader)
    (h3 : extractAll (alive_it reader.pages) = .ok texts) :
    (run lib fs [prog]).exitCode ≠ 0 ∧
    (run lib fs [prog]).errDetail = true ∧
    run lib fs (prog :: p :: rest) = run lib fs [prog, p] ∧
    (run lib fs [prog, p]).exitCode = 0 := by
  refine ⟨by simp [run], by simp [run], by simp [run], ?_⟩
  rw [run_success prog h1 h2 h3]

theorem C4_witness :
    (run lib0 fs0 ["prog"]).exitCode ≠ 0 ∧
    (run lib0 fs0 ["prog"]).errDetail = true ∧
    run lib0 fs0 ["prog", "a.pdf", "extra"] = run lib0 fs0 ["prog", "a.pdf"] ∧
    (run lib0 fs0 ["prog", "a.pdf"]).exitCode = 0 :=
  C4_amended_cli lib0 fs0 "prog" "a.pdf" ["extra"] [37, 80, 68, 70]
    ⟨[⟨.ok "Hello"⟩]⟩ ["Hello"] (by decide) rfl rfl

/-- C5: counterexample — during the run the output path holds the one-byte
truncation of the serialized JSON, which is neither empty nor the full
serialization: the program writes in place, with no temporary path and
rename, so a truncated JSON file can be observed at the output path. -/
theorem C5_counterexample :
    some ((jsonBytes ["Hello"]).take 1) ∈ outputDuringRun lib0 fs0 ["prog", "a.pdf"] ∧
    (jsonBytes ["Hello"]).take 1 ≠ jsonBytes ["Hello"] ∧
    (jsonBytes ["Hello"]).take 1 ≠ [] := by decide

/-- C5 (amended): the program writes directly to p + ".json", truncating it
on open; during the write the output path holds prefixes of the serialized
bytes (the empty truncation included), so external termination mid-write
can leave a truncated JSON file; only at completion does the path hold the
complete serialization. -/
theorem C5_amended_direct_write (lib : PdfLib) (fs : FS) (prog p : String)
    (c : FileContent) (reader : PdfReaderDoc) (texts : List String)
    (h1 : fs p = some c) (h2 : lib.parse c = .ok reader)
    (h3 : extractAll (alive_it reader.pages) = .ok texts) :
    (∀ o ∈ outputDuringRun lib fs [prog, p],
      o = fs (p ++ ".json") ∨ ∃ k, o = some ((jsonBytes texts).take k)) ∧
    (run lib fs [prog, p]).fs (p ++ ".json") = some (jsonBytes texts) ∧
    some ((jsonBytes texts).take 0) ∈ outputDuringRun lib fs [prog, p] ∧
    (jsonBytes texts).take 0 ≠ jsonBytes texts := by
  have hout : outputDuringRun lib fs [prog, p] =
      fs (p ++ ".json") ::
        (List.range ((jsonBytes texts).length + 1)).map
          (fun k => some ((jsonBytes texts).take k)) := by
    unfold outputDuringRun
    simp [h1, h2, h3]
  refine ⟨?_, ?_, ?_, ?_⟩
  · intro o ho
    rw [hout] at ho
    rcases List.mem_cons.mp ho with h | h
    · exact Or.inl h
    · obtain ⟨k, _, hk⟩ := List.mem_map.mp h
      exact Or.inr ⟨k, hk.symm⟩
  · rw [run_success prog h1 h2 h3]
    exact fsWrite_self fs (p ++ ".json") (jsonBytes texts)
  · rw [hout]
    exact List.mem_cons_of_mem _ (List.mem_map.mpr ⟨0, List.mem_range.mpr (by omega), rfl⟩)
  · simpa using (jsonBytes_ne_nil texts).symm

theorem C5_witness :
    (∀ o ∈ outputDuringRun lib0 fs0 ["prog", "a.pdf"],
      o = fs0 ("a.pdf" ++ ".json") ∨ ∃ k, o = some ((jsonBytes ["Hello"]).take k)) ∧
    (run lib0 fs0 ["prog", "a.pdf"]).fs ("a.pdf" ++ ".json") = some (jsonBytes ["Hello"]) ∧
    some ((jsonBytes ["Hello"]).take 0) ∈ outputDuringRun lib0 fs0 ["prog", "a.pdf"] ∧
    (jsonBytes ["Hello"]).take 0 ≠ jsonBytes ["Hello"] :=
  C5_amended_direct_write lib0 fs0 "prog" "a.pdf" [37, 80, 68, 70]
    ⟨[⟨.ok "Hello"⟩]⟩ ["Hello"] (by decide) rfl rfl

/-- C6: the program is deterministic: running it a second time on the same
input (over the filesystem the first run produced) yields the same exit
code and byte-identical content at p + ".json". -/
theorem C6_rerun_byte_identical (lib : PdfLib) (fs : FS) (prog p : String) :
    (run lib (run lib fs [prog, p]).fs [prog, p]).exitCode = (run lib fs [prog, p]).exitCode ∧
    (run lib (run lib fs [prog, p]).fs [prog, p]).fs (p ++ ".json") =
      (run lib fs [prog, p]).fs (p ++ ".json") := by
  cases hc : fs p with
  | none =>
    have h := run_openFails_cases lib prog (Or.inl hc)
    simp [h]
  | some c =>
    cases hp : lib.parse c with
    | error e =>
      have h := run_openFails_cases lib prog (Or.inr ⟨c, e, hc, hp⟩)
      simp [h]
    | ok reader =>
      cases he : extractAll (alive_it reader.pages) with
      | error e =>
        have h := run_extractFails_cases lib prog ⟨c, reader, e, hc, hp, he⟩
        simp [h]
      | ok texts =>
        have h := run_success prog hc hp he
        have hc' : fsWrite fs (p ++ ".json") (jsonBytes texts) p = some c := by
          rw [fsWrite_ne fs (p ++ ".json") p (jsonBytes texts) (ne_append_json p)]
          exact hc
        have h' := run_success prog hc' hp he
        simp [h, h', fsWrite_self]

/-- C7: the result list is write-once and built entirely before
serialization: if any page's extraction fails, nothing is ever written to
the output path; on success the bytes written serialize the complete list,
whose length equals the document's page count and whose i-th element is
page i's text. -/
theorem C7_list_before_write (lib : PdfLib) (fs : FS) (prog p : String)
    (c : FileContent) (reader : PdfReaderDoc)
    (h1 : fs p = some c) (h2 : lib.parse c = .ok reader) :
    (∀ e, extractAll (alive_it reader.pages) = .error e →
      outputDuringRun lib fs [prog, p] = [fs (p ++ ".json")]) ∧
    (∀ texts, extractAll (alive_it reader.pages) = .ok texts →
      texts.length = reader.pages.length ∧
      (∀ i, i < reader.pages.length → ∃ pg t, reader.pages[i]? = some pg ∧
        texts[i]? = some t ∧ pg.extract_text = .ok t) ∧
      (run lib fs [prog, p]).fs (p ++ ".json") = some (jsonBytes texts)) := by
  constructor
  · intro e he
    unfold outputDuringRun
    simp [h1, h2, he]
  · intro texts ht
    refine ⟨by simpa [alive_it] using extractAll_length ht, ?_, ?_⟩
    · intro i hi
      exact extractAll_align ht i (by simpa [alive_it] using hi)
    · rw [run_success prog h1 h2 ht]
      exact fsWrite_self fs (p ++ ".json") (jsonBytes texts)

theorem C7_witness :
    (∀ e, extractAll (alive_it (PdfReaderDoc.mk [⟨.ok "Hello"⟩]).pages) = .error e →
      outputDuringRun lib0 fs0 ["prog", "a.pdf"] = [fs0 ("a.pdf" ++ ".json")]) ∧
    (∀ texts, extractAll (alive_it (PdfReaderDoc.mk [⟨.ok "Hello"⟩]).pages) = .ok texts →
      texts.length = (PdfReaderDoc.mk [⟨.ok "Hello"⟩]).pages.length ∧
      (∀ i, i < (PdfReaderDoc.mk [⟨.ok "Hello"⟩]).pages.length →
        ∃ pg t, (PdfReaderDoc.mk [⟨.ok "Hello"⟩]).pages[i]? = some pg ∧
          texts[i]? = some t ∧ pg.extract_text = .ok t) ∧
      (run lib0 fs0 ["prog", "a.pdf"]).fs ("a.pdf" ++ ".json") = some (jsonBytes texts)) :=
  C7_list_before_write lib0 fs0 "prog" "a.pdf" [37, 80, 68, 70]
    ⟨[⟨.ok "Hello"⟩]⟩ (by decide) rfl

/-- C8: a successful run exits 0 and writes exactly one file, p + ".json"
— overwriting whatever was there — and leaves every other filesystem path
unchanged; the model has no network effects at all. -/
theorem C8_single_write_frame (lib : PdfLib) (fs : FS) (prog p : String)
    (c : FileContent) (reader : PdfReaderDoc) (texts : List String)
    (h1 : fs p = some c) (h2 : lib.parse c = .ok reader)
    (h3 : extractAll (alive_it reader.pages) = .ok texts) :
    (run lib fs [prog, p]).exitCode = 0 ∧
    (run lib fs [prog, p]).fs (p ++ ".json") = some (jsonBytes texts) ∧
    (∀ q, q ≠ p ++ ".json" → (run lib fs [prog, p]).fs q = fs q) := by
  rw [run_success prog h1 h2 h3]
  exact ⟨rfl, fsWrite_self fs (p ++ ".json") (jsonBytes texts),
    fun q hq => fsWrite_ne fs (p ++ ".json") q (jsonBytes texts) hq⟩

theorem C8_witness :
    (run lib0 fs1 ["prog", "a.pdf"]).exitCode = 0 ∧
    (run lib0 fs1 ["prog", "a.pdf"]).fs ("a.pdf" ++ ".json") = some (jsonBytes ["Hello"]) ∧
    (∀ q, q ≠ "a.pdf" ++ ".json" → (run lib0 fs1 ["prog", "a.pdf"]).fs q = fs1 q) :=
  C8_single_write_frame lib0 fs1 "prog" "a.pdf" [37, 80, 68, 70]
    ⟨[⟨.ok "Hello"⟩]⟩ ["Hello"] (by decide) rfl rfl

/-- C9: the program with the progress display and the no-progress variant
produce identical outcomes — exit code, error stream and filesystem — on
every input: the progress display is cosmetic. -/
theorem C9_progress_cosmetic (lib : PdfLib) (fs : FS) (argv : List String) :
    run lib fs argv = runNoProgress lib fs argv := rfl

set_option maxHeartbeats 1600000 in
/-- C10: every byte written to the output file is ASCII: `json.dump` runs
with its default `ensure_ascii` behavior, so each non-ASCII character of
the extracted text appears in the file as a `\uXXXX` escape sequence
rather than as a UTF-8-encoded character. -/
theorem C10_ascii_output (lib : PdfLib) (fs : FS) (prog p : String)
    (c : FileContent) (reader : PdfReaderDoc) (texts : List String)
    (h1 : fs p = some c) (h2 : lib.parse c = .ok reader)
    (h3 : extractAll (alive_it reader.pages) = .ok texts) :
    (run lib fs [prog, p]).fs (p ++ ".json") = some (jsonBytes texts) ∧
    (∀ b ∈ jsonBytes texts, b < 128) ∧
    (∀ d : Char, 127 ≤ d.toNat → d.toNat < 65536 → escapeChar d = uEscape d.toNat) := by
  refine ⟨?_, jsonBytes_ascii texts, ?_⟩
  · rw [run_success prog h1 h2 h3]
    exact fsWrite_self fs (p ++ ".json") (jsonBytes texts)
  · intro d hlo hhi
    unfold escapeChar
    split_ifs with g1 g2 g3 g4 g5 g6 g7 g8 g9 g10 <;>
      first
        | rfl
        | omega
        | (subst_vars; exact absurd hlo (by decide))

theorem C10_witness :
    (run libUnicode fs0 ["prog", "a.pdf"]).fs ("a.pdf" ++ ".json") = some (jsonBytes ["é"]) ∧
    (∀ b ∈ jsonBytes ["é"], b < 128) ∧
    (∀ d : Char, 127 ≤ d.toNat → d.toNat < 65536 → escapeChar d = uEscape d.toNat) :=
  C10_ascii_output libUnicode fs0 "prog" "a.pdf" [37, 80, 68, 70]
    ⟨[⟨.ok "é"⟩]⟩ ["é"] (by decide) rfl rfl
